import Mathlib

/-!
# Verification of the mcp-servers guardrail layer

Shallow embedding of the guardrail/validation functions of the three MCP
services (BigQuery, GitHub, Outlook) and of the request pipelines that
sequence them, together with proofs of the spec's claims about them.

Python strings are modelled as Lean `String` / `List Char`; Python `int`
as `Int` (arbitrary precision in both languages); `None`-able values as
`Option`; raised `ValueError` / `AuthError` as `Except` errors.
-/

namespace MCP

/-! ## Python string primitives

`str.strip` / `str.rstrip` with no argument remove the characters for
which `str.isspace` holds at either end; for the ASCII range these are
space, tab, newline, carriage return, vertical tab and form feed. -/

/-- Python `str.isspace` on a single ASCII character. -/
def pyIsSpace (c : Char) : Bool :=
  c = ' ' || c = '\t' || c = '\n' || c = '\r' || c = '\x0b' || c = '\x0c'

/-- Python `str.lstrip()` on a character list. -/
def lstripL (l : List Char) : List Char := l.dropWhile pyIsSpace

/-- Python `str.rstrip()` on a character list. -/
def rstripL (l : List Char) : List Char := (l.reverse.dropWhile pyIsSpace).reverse

/-- Python `str.strip()` on a character list. -/
def stripL (l : List Char) : List Char := rstripL (lstripL l)

/-- Python `str.strip()` on a `String`. -/
def pyStrip (s : String) : String := ⟨stripL s.data⟩

/-- Whether an embedded Python call raised (`Except.error`). -/
def isErr {ε α : Type} : Except ε α → Bool
  | .error _ => true
  | .ok _ => false

/-! ## bigquery-mcp-servers/src/guardrails/cost_controls.py -/

/-- `enforce_estimated_bytes(estimated_bytes, max_bytes)`: no-op when the
estimate is absent or the cap is non-positive, else raises `ValueError`
when the estimate strictly exceeds the cap.  The function reads its two
arguments only and mutates nothing, so it is embedded as a pure function
into `Except`. -/
def enforce_estimated_bytes (estimated_bytes : Option Int) (max_bytes : Int) :
    Except String Unit :=
  match estimated_bytes with
  | none => .ok ()
  | some b =>
    if max_bytes ≤ 0 then .ok ()
    else if b > max_bytes then
      .error "Query rejected: estimated bytes processed exceeds cap."
    else .ok ()

/-- `clamp_rows(requested, default, hard_max)` from cost_controls.py:
`None` ⇒ default; then non-positive ⇒ default; then cap at `hard_max`. -/
def clamp_rows (requested : Option Int) (default hard_max : Int) : Int :=
  let n := match requested with
    | none => default
    | some r => r
  let n := if n ≤ 0 then default else n
  if n > hard_max then hard_max else n

/-! ## outlook-mcp-servers/src/guardrails/limits.py (also used by the
GitHub service) -/

/-- `clamp_int(value, default, min_value, max_value)`: `None` ⇒ default;
then raise to `min_value` and cap at `max_value`. -/
def clamp_int (value : Option Int) (default min_value max_value : Int) : Int :=
  let v := match value with
    | none => default
    | some x => x
  let v := if v < min_value then min_value else v
  if v > max_value then max_value else v

/-! ## outlook-mcp-servers/src/guardrails/time_window.py

`clamp_range_days` operates on two already-parsed timezone-aware Python
`datetime` values.  Aware datetimes compare, subtract and add `timedelta`
by their underlying instant (for the fixed-offset zones produced by
`fromisoformat`), so an aware datetime is embedded as its instant in
microseconds since the epoch — `timedelta` resolution in Python. -/

/-- A parsed timezone-aware instant: microseconds since the Unix epoch. -/
structure PyDateTime where
  micros : Int
deriving DecidableEq, Repr

/-- Python `timedelta(days = d)` in microseconds. -/
def timedeltaDays (d : Int) : Int := d * 86400000000

/-- `clamp_range_days(start, end, max_days)`: rejects when `end ≤ start`,
silently shortens `end` to `start + timedelta(days = max_days)` when the
span exceeds it, else returns the pair unchanged. -/
def clamp_range_days (s e : PyDateTime) (max_days : Int) :
    Except String (PyDateTime × PyDateTime) :=
  if e.micros ≤ s.micros then
    .error "end_iso must be after start_iso"
  else if e.micros - s.micros > timedeltaDays max_days then
    .ok (s, ⟨s.micros + timedeltaDays max_days⟩)
  else
    .ok (s, e)

/-- Proleptic-Gregorian day count (days since 1970-01-01) of a civil date
with `1 ≤ m ≤ 12`, years ≥ 1; used only to name concrete instants in
examples. -/
def daysFromCivil (y m d : Nat) : Int :=
  let y' : Nat := if m ≤ 2 then y - 1 else y
  let era : Nat := y' / 400
  let yoe : Nat := y' - era * 400
  let mp : Nat := (m + 9) % 12
  let doy : Nat := (153 * mp + 2) / 5 + d - 1
  let doe : Nat := yoe * 365 + yoe / 4 - yoe / 100 + doy
  (era * 146097 + doe : Int) - 719468

/-- The instant of midnight UTC on a given civil date. -/
def utcMidnight (y m d : Nat) : PyDateTime :=
  ⟨daysFromCivil y m d * 86400000000⟩

/-! ## github-mcp-servers/src/guardrails/repo_allowlist.py

`fnmatch.fnmatchcase` matches the whole name against a shell-style
pattern: `*` matches any run of characters, `?` any single character, and
`[seq]` / `[!seq]` a character (not) in the set, where `seq` may contain
`a-z` ranges, a leading `]` is literal, and an unterminated `[` is a
literal `[`. -/

/-- Interpret the body of a `[...]` set: literal characters and `a-z`
ranges (`-` in first or last position is literal). -/
def classMatches : List Char → Char → Bool
  | [], _ => false
  | a :: '-' :: b :: rest, c => (a ≤ c && c ≤ b) || classMatches rest c
  | a :: rest, c => (a = c) || classMatches rest c

/-- Scan a `[...]` body up to the closing `]`, with fnmatch's rule that a
`]` in first position (after an optional `!`) is part of the set.
Returns the negation flag, the set body and the remainder after `]`, or
`none` when the bracket is unterminated. -/
def scanClass (l : List Char) : Option (Bool × List Char × List Char) :=
  let (neg, l') := match l with
    | '!' :: rest => (true, rest)
    | _ => (false, l)
  let (firstRB, l'') := match l' with
    | ']' :: rest => ([']'], rest)
    | _ => (([] : List Char), l')
  go neg firstRB l''
where
  go (neg : Bool) (acc : List Char) : List Char → Option (Bool × List Char × List Char)
    | [] => none
    | ']' :: rest => some (neg, acc, rest)
    | c :: rest => go neg (acc ++ [c]) rest

/-- Whole-string glob matching after fnmatch's translation: `*`, `?`,
`[...]` sets, other characters literal. -/
def globMatch : List Char → List Char → Bool
  | [], [] => true
  | [], _ :: _ => false
  | '*' :: p, s =>
    globMatch p s ||
      (match s with
       | [] => false
       | _ :: s' => globMatch ('*' :: p) s')
  | '?' :: p, s =>
    (match s with
     | [] => false
     | _ :: s' => globMatch p s')
  | '[' :: p, s =>
    (match scanClass p with
     | none =>
       -- unterminated bracket: literal '['
       (match s with
        | '[' :: s' => globMatch p s'
        | _ => false)
     | some (neg, body, p') =>
       (match s with
        | c :: s' =>
          (if neg then !classMatches body c else classMatches body c)
            && globMatch p' s'
        | [] => false))
  | c :: p, s =>
    (match s with
     | d :: s' => c = d && globMatch p s'
     | [] => false)
termination_by p s => (s.length, p.length)
decreasing_by
  all_goals simp_wf
  all_goals first
    | exact Prod.Lex.right _ (by simp)
    | exact Prod.Lex.left _ _ (by simp)

/-- `fnmatch.fnmatchcase(name, pattern)` (case-sensitive). -/
def fnmatchcase (name pattern : String) : Bool :=
  globMatch pattern.data name.data

/-- Python `s.split(",")`: split at every comma, keeping empty parts. -/
def splitCommaL : List Char → List (List Char)
  | [] => [[]]
  | ',' :: rest => [] :: splitCommaL rest
  | c :: rest =>
    match splitCommaL rest with
    | h :: t => (c :: h) :: t
    | [] => [[c]]

/-- `parse_allowlist(value)`: `None`/empty ⇒ `[]`; else split on commas,
strip each part, drop empties. -/
def parse_allowlist (value : Option String) : List String :=
  match value with
  | none => []
  | some v =>
    if v = "" then []
    else
      ((splitCommaL v.data).map (fun p => (⟨stripL p⟩ : String))).filter
        (fun p => p ≠ "")

/-- `is_allowed(owner, repo, patterns)`: empty pattern list ⇒ `True`;
else `"owner/repo"` must fnmatch-case-match some pattern. -/
def is_allowed (owner repo : String) (patterns : List String) : Bool :=
  if patterns.isEmpty then true
  else
    let target := owner ++ "/" ++ repo
    patterns.any (fun pat => fnmatchcase target pat)

/-- Error taxonomy of the GitHub tool layer, one constructor per raise
site. -/
inductive GHErr
  | ownerRequired
  | ownerRepoRequired
  | repoNotAllowed (owner repo : String)
deriving DecidableEq, Repr

/-- `require_allowed(owner, repo, patterns)`: raises when `is_allowed`
is false. -/
def require_allowed (owner repo : String) (patterns : List String) :
    Except GHErr Unit :=
  if is_allowed owner repo patterns then .ok ()
  else .error (.repoNotAllowed owner repo)

/-! ## bigquery-mcp-servers/src/guardrails/sql_guardrails.py

`re.sub(r"/\*.*?\*/", "", s, flags=DOTALL)` removes, left to right, every
non-greedy block comment: at each `/*` the match ends at the first
following `*/`; a `/*` with no `*/` anywhere after it matches nothing.
`re.sub(r"(--|#).*$", "", s, flags=MULTILINE)` truncates every line at
its first `--` or `#`. -/

/-- Consume characters up to and including the first `*/`; `none` when
there is no `*/`. -/
def skipToClose : List Char → Option (List Char)
  | [] => none
  | [_] => none
  | a :: b :: rest =>
    if a = '*' && b = '/' then some rest else skipToClose (b :: rest)

/-- `re.sub(_MULTI_LINE_COMMENT, "", s)`: drop every non-greedy
`/* ... */` block, scanning left to right. -/
def removeBlockComments : List Char → List Char
  | [] => []
  | [c] => [c]
  | a :: b :: rest =>
    if a = '/' && b = '*' then
      match hsk : skipToClose rest with
      | some rest2 => removeBlockComments rest2
      | none => a :: b :: rest
    else a :: removeBlockComments (b :: rest)
termination_by l => l.length
decreasing_by
  · have key : ∀ (l : List Char), ∀ l', skipToClose l = some l' →
        l'.length < l.length := by
      intro l
      induction l with
      | nil => intro l' h; simp [skipToClose] at h
      | cons c t ih =>
        intro l' h
        cases t with
        | nil => simp [skipToClose] at h
        | cons d t2 =>
          rw [skipToClose] at h
          by_cases hcd : (c = '*' && d = '/') = true
          · rw [if_pos hcd] at h
            cases h
            simp
            omega
          · rw [if_neg hcd] at h
            have := ih l' h
            simp at this ⊢
            omega
    have := key rest rest2 hsk
    simp
    omega
  · simp

/-- `re.sub(_SINGLE_LINE_COMMENT, "", s)`: truncate every line at its
first `--` or `#` (the newline itself is kept). -/
def removeLineComments : List Char → List Char
  | [] => []
  | [c] => if c = '#' then [] else [c]
  | a :: b :: rest =>
    if a = '#' then
      removeLineComments ((b :: rest).dropWhile (fun c => !(c = '\n')))
    else if a = '-' && b = '-' then
      removeLineComments (rest.dropWhile (fun c => !(c = '\n')))
    else a :: removeLineComments (b :: rest)
termination_by l => l.length
decreasing_by
  · have key : ∀ (l : List Char), (l.dropWhile (fun c => !(c = '\n'))).length ≤ l.length := by
      intro l
      induction l with
      | nil => simp
      | cons c t ih =>
        rw [List.dropWhile_cons]
        cases hp : !(c = '\n') <;> simp <;> omega
    have := key (b :: rest)
    simp at this ⊢
    omega
  · have key : ∀ (l : List Char), (l.dropWhile (fun c => !(c = '\n'))).length ≤ l.length := by
      intro l
      induction l with
      | nil => simp
      | cons c t ih =>
        rw [List.dropWhile_cons]
        cases hp : !(c = '\n') <;> simp <;> omega
    have := key rest
    simp at this ⊢
    omega
  · simp

/-- `normalize_sql(sql)`: strip; fail when empty; remove block then line
comments; strip again; fail when empty; return. -/
def normalize_sql (sql : String) : Except String String :=
  let s := stripL sql.data
  if s.isEmpty then .error "SQL is empty"
  else
    let s1 := stripL (removeLineComments (removeBlockComments s))
    if s1.isEmpty then .error "SQL is empty after removing comments"
    else .ok ⟨s1⟩

/-- The `while s.endswith(";"): s = s[:-1].rstrip()` loop, run on the
reversed character list: drop a leading `;` then leading whitespace,
repeatedly. -/
def stripTrailingSemisRev : List Char → List Char
  | [] => []
  | c :: rest =>
    if c = ';' then stripTrailingSemisRev (rest.dropWhile pyIsSpace)
    else c :: rest
termination_by l => l.length
decreasing_by
  have key : ∀ (l : List Char), (l.dropWhile pyIsSpace).length ≤ l.length := by
    intro l
    induction l with
    | nil => simp
    | cons c t ih =>
      rw [List.dropWhile_cons]
      cases hp : pyIsSpace c <;> simp <;> omega
  simp only [List.length_cons]
  exact Nat.lt_succ_of_le (key _)

/-- `reject_multiple_statements(sql)`: strip, remove trailing
semicolons (with interleaved whitespace), then reject when a `;`
remains anywhere. -/
def reject_multiple_statements (sql : String) : Except String Unit :=
  let s := stripL sql.data
  let s2 := (stripTrailingSemisRev s.reverse).reverse
  if ';' ∈ s2 then
    .error "Multiple statements are not allowed (possible script detected). Provide a single SELECT query."
  else .ok ()

/-- The spec's description of the remaining string: the input stripped,
with the maximal trailing run of semicolons and interleaved whitespace
removed.  Stated from the spec's words, for comparison with the code's
`stripTrailingSemisRev` loop. -/
def removeTrailingTerminators (s : String) : String :=
  ⟨((stripL s.data).reverse.dropWhile (fun c => c = ';' || pyIsSpace c)).reverse⟩

/-! ## bigquery-mcp-servers/src/services/secrets.py

`TokenStore.token_to_label` is a Python `dict` (insertion-ordered, keys
unique); it is embedded as an association list `(token, label)` whose
keys are pairwise distinct.  `secrets.compare_digest` is functionally
string equality (its constant-time execution is a timing property; what
is observable in the embedding is which comparisons are performed, which
`authScan` counts). -/

/-- Outcome of `authenticate_request`, one constructor per exit path. -/
inductive AuthOutcome
  | ok (label : String)
  | missingToken
  | invalidToken
deriving DecidableEq, Repr

/-- `secrets.compare_digest` on equal inputs returns `True`, else
`False`: functionally, string equality. -/
def compare_digest (a b : String) : Bool := a == b

/-- The `for known, label in self.token_to_label.items()` loop: returns
the label of the first key for which `compare_digest` succeeds, paired
with the number of `compare_digest` calls performed. -/
def authScan : List (String × String) → String → Option String × Nat
  | [], _ => (none, 0)
  | (known, label) :: rest, token =>
    if compare_digest known token then (some label, 1)
    else
      let r := authScan rest token
      (r.1, r.2 + 1)

/-- `TokenStore.authenticate_request`, after bearer-token extraction:
missing/empty token fails first, then the comparison loop, then the
invalid-token failure. -/
def authenticate (token : Option String) (registry : List (String × String)) :
    AuthOutcome :=
  match token with
  | none => .missingToken
  | some t =>
    if t = "" then .missingToken
    else
      match (authScan registry t).1 with
      | some label => .ok label
      | none => .invalidToken

/-- Number of `compare_digest` invocations performed by
`authenticate_request` for a given presented token. -/
def authCompareCount (token : Option String)
    (registry : List (String × String)) : Nat :=
  match token with
  | none => 0
  | some t => if t = "" then 0 else (authScan registry t).2

/-- Position of the first registry key equal (under `compare_digest`) to
the presented token. -/
def firstMatchPos : List (String × String) → String → Option Nat
  | [], _ => none
  | (known, _) :: rest, token =>
    if compare_digest known token then some 0
    else (firstMatchPos rest token).map (· + 1)

/-! ## bigquery-mcp-servers/src/mcp/tools/bigquery.py

`bigquery_select` is embedded as a function of the dry-run outcome (an
input supplied by the external BigQuery backend) that returns the
tool's result together with the ordered list of backend calls it makes;
`execute_select`'s own result is external and not modelled. -/

structure BQSettings where
  bq_max_bytes_billed : Int
  bq_default_limit : Int
  bq_max_return_rows : Int
deriving Repr

/-- The dry-run outcome supplied by the BigQuery backend. -/
structure DryRunResult where
  statement_type : Option String
  total_bytes_processed : Option Int
deriving Repr

/-- Backend calls made by `bigquery_select`, in order. -/
inductive BQCall
  | dryRun
  | executeSelect
deriving DecidableEq, Repr

/-- Data the pipeline passes to `execute_select` on success. -/
structure BQSuccess where
  query : String
  max_rows : Int
deriving DecidableEq, Repr

/-- The `bigquery_select` tool body: normalize, reject multi-statement,
dry-run, statement-type gate, cost gate, row clamp, execute. -/
def bigquery_select (st : BQSettings) (dry : DryRunResult) (sql : String)
    (max_rows : Option Int) : Except String BQSuccess × List BQCall :=
  match normalize_sql sql with
  | .error e => (.error e, [])
  | .ok cleaned =>
    match reject_multiple_statements cleaned with
    | .error e => (.error e, [])
    | .ok _ =>
      -- 1) dry run (backend call)
      let stmt := (dry.statement_type.getD "").toUpper
      if stmt ≠ "SELECT" then
        (.error "Only SELECT queries are allowed.", [.dryRun])
      else
        -- 2) hard cost gate
        match enforce_estimated_bytes dry.total_bytes_processed
            st.bq_max_bytes_billed with
        | .error e => (.error e, [.dryRun])
        | .ok _ =>
          -- 3) execute SELECT with return-row cap
          let effective_rows := clamp_rows max_rows st.bq_default_limit
            st.bq_max_return_rows
          (.ok ⟨cleaned, effective_rows⟩, [.dryRun, .executeSelect])

/-! ## github-mcp-servers/src/mcp/tools/github.py

Each tool is embedded as a function returning its outcome together with
the ordered list of guardrail/backend calls it makes; the GitHub
client's own results are external and not modelled.  The source
registers `github_latest_commit` twice under the same name; both bodies
are embedded (`…_first` from lines 32–48, `…_second` from lines
72–89). -/

structure GHSettings where
  github_allowed_repos : Option String
  github_max_commits_return : Int
deriving Repr

/-- Guardrail and backend calls made by the GitHub tools, in order. -/
inductive GHCall
  | allowlistCheck
  | listRepos
  | latestCommit
  | latestCommits
deriving DecidableEq, Repr

/-- The `github_list_repos` tool body. -/
def github_list_repos (owner : String) :
    Except GHErr String × List GHCall :=
  let owner := pyStrip owner
  if owner = "" then (.error .ownerRequired, [])
  else (.ok owner, [.listRepos])

/-- The `github_latest_commits` tool body (lines 51–70): strips its
arguments, clamps the limit, delegates — no allowlist check. -/
def github_latest_commits (st : GHSettings) (owner repo : String)
    (limit : Int) (branch : Option String) :
    Except GHErr (String × String × Int) × List GHCall :=
  let owner := pyStrip owner
  let repo := pyStrip repo
  if owner = "" ∨ repo = "" then (.error .ownerRepoRequired, [])
  else
    let limit := clamp_int (some limit) 5 1 st.github_max_commits_return
    (.ok (owner, repo, limit), [.latestCommits])

/-- The first registration of `github_latest_commit` (lines 32–48):
strips its arguments and delegates — no allowlist check. -/
def github_latest_commit_first (owner repo : String)
    (branch : Option String) :
    Except GHErr (String × String) × List GHCall :=
  let owner := pyStrip owner
  let repo := pyStrip repo
  if owner = "" ∨ repo = "" then (.error .ownerRepoRequired, [])
  else (.ok (owner, repo), [.latestCommit])

/-- The second, duplicate registration of `github_latest_commit`
(lines 72–89): the only tool body that parses the allowlist and calls
`require_allowed` before delegating. -/
def github_latest_commit_second (st : GHSettings) (owner repo : String)
    (branch : Option String) :
    Except GHErr (String × String) × List GHCall :=
  let owner := pyStrip owner
  let repo := pyStrip repo
  if owner = "" ∨ repo = "" then (.error .ownerRepoRequired, [])
  else
    let patterns := parse_allowlist st.github_allowed_repos
    match require_allowed owner repo patterns with
    | .error e => (.error e, [.allowlistCheck])
    | .ok _ => (.ok (owner, repo), [.allowlistCheck, .latestCommit])

/-! # Theorems -/

/-! ## Shared helper lemmas -/

/-- `enforce_estimated_bytes` raises exactly when the estimate is
present, the cap is positive, and the estimate strictly exceeds it. -/
theorem enforce_isErr_iff (e : Option Int) (m : Int) :
    isErr (enforce_estimated_bytes e m) = true ↔
      ∃ b, e = some b ∧ 0 < m ∧ m < b := by
  cases e with
  | none => simp [enforce_estimated_bytes, isErr]
  | some b =>
    by_cases hm : m ≤ 0
    · simp [enforce_estimated_bytes, hm, isErr]
    · by_cases hb : b > m
      · simp [enforce_estimated_bytes, hm, hb, isErr]
        omega
      · simp [enforce_estimated_bytes, hm, hb, isErr]

/-- `enforce_estimated_bytes` returns unit on success. -/
theorem enforce_ok_of_not_err (e : Option Int) (m : Int)
    (h : isErr (enforce_estimated_bytes e m) = false) :
    enforce_estimated_bytes e m = .ok () := by
  cases henf : enforce_estimated_bytes e m with
  | error msg => rw [henf] at h; simp [isErr] at h
  | ok u => cases u; rfl

/-! ## C5 — cost gate -/

/-- C5: `enforce_estimated_bytes` raises a cost-exceeded error iff the
estimate is present, the cap is positive, and the estimate strictly
exceeds the cap; it is a no-op (pure, state-free, returning unit) when
the estimate is absent or the cap is ≤ 0; on the spec's concrete
examples it rejects 6 GB against a 5 GB cap and accepts an absent
estimate. -/
theorem c5_enforce_estimated_bytes (e : Option Int) (m : Int) :
    (isErr (enforce_estimated_bytes e m) = true ↔
      ∃ b, e = some b ∧ 0 < m ∧ m < b)
    ∧ (e = none → enforce_estimated_bytes e m = .ok ())
    ∧ (m ≤ 0 → enforce_estimated_bytes e m = .ok ())
    ∧ enforce_estimated_bytes (some 6000000000) 5000000000 =
        .error "Query rejected: estimated bytes processed exceeds cap."
    ∧ enforce_estimated_bytes none 5000000000 = .ok () := by
  refine ⟨enforce_isErr_iff e m, ?_, ?_, rfl, rfl⟩
  · intro he
    subst he
    rfl
  · intro hm
    cases e with
    | none => rfl
    | some b => simp [enforce_estimated_bytes, hm]

/-- C5 witness: the theorem applied at a concrete estimate and cap. -/
theorem c5_witness :
    enforce_estimated_bytes none (5000000000 : Int) = .ok () :=
  (c5_enforce_estimated_bytes none 5000000000).2.1 rfl

/-! ## C4 — row/count clamp -/

/-- C4 counterexample: the GitHub commit-limit and Outlook event-limit
call sites use `clamp_int` with `min_value = 1`, which maps the
requested value `-5` to `1`, not to the default `500` as the claim
states for those call sites. -/
theorem c4_counterexample :
    clamp_int (some (-5)) 500 1 1000 = 1 ∧
      ¬ clamp_int (some (-5)) 500 1 1000 = 500 := by
  constructor
  · rfl
  · intro h
    simp [clamp_int] at h

/-- C4 (amended): `clamp_rows` (the BigQuery row-limit site) returns the
default when the requested value is absent or non-positive and caps at
`hard_max`, matching all three of the claim's examples; `clamp_int` (the
GitHub commit-limit and Outlook event-limit sites, called with
`min_value = 1`) substitutes the default only when the value is absent
and otherwise clamps into `[min_value, max_value]`, so
`clamp_int(-5, default=500, min=1, max=1000) = 1`, not `500`.  Neither
function can error. -/
theorem c4_clamp_call_sites (requested : Option Int)
    (default min_value max_value hard_max : Int) :
    clamp_rows requested default hard_max =
      min (if requested.getD default ≤ 0 then default
           else requested.getD default) hard_max
    ∧ clamp_int requested default min_value max_value =
        min (max (requested.getD default) min_value) max_value
    ∧ clamp_rows (some (-5)) 500 1000 = 500
    ∧ clamp_rows (some 5000) 500 1000 = 1000
    ∧ clamp_rows none 500 1000 = 500
    ∧ clamp_int (some (-5)) 500 1 1000 = 1
    ∧ clamp_int (some 5000) 500 1 1000 = 1000
    ∧ clamp_int none 500 1 1000 = 500 := by
  refine ⟨?_, ?_, by decide, by decide, by decide, by decide, by decide,
    by decide⟩
  · cases requested with
    | none =>
      simp only [clamp_rows, Option.getD, min_def]
      split_ifs <;> omega
    | some r =>
      simp only [clamp_rows, Option.getD, min_def]
      split_ifs <;> omega
  · cases requested with
    | none =>
      simp only [clamp_int, Option.getD, min_def, max_def]
      split_ifs <;> omega
    | some r =>
      simp only [clamp_int, Option.getD, min_def, max_def]
      split_ifs <;> omega

/-! ## C6 — multi-statement rejection -/

/-- Dropping leading whitespace first does not change a `dropWhile` over
semicolons-or-whitespace. -/
theorem dropWhile_sp_both (l : List Char) :
    (l.dropWhile pyIsSpace).dropWhile (fun c => c = ';' || pyIsSpace c) =
      l.dropWhile (fun c => c = ';' || pyIsSpace c) := by
  induction l with
  | nil => simp
  | cons c t ih =>
    by_cases hsp : pyIsSpace c = true
    · rw [List.dropWhile_cons, if_pos hsp, ih, List.dropWhile_cons,
        if_pos (by simp [hsp])]
    · rw [List.dropWhile_cons, if_neg hsp]

/-- On a list with no leading whitespace, the code's trailing-semicolon
loop (run on the reversed string) equals a single `dropWhile` over
semicolons and whitespace — the spec's "strips any number of trailing
terminators with interleaved whitespace". -/
theorem sts_eq_dropWhile (l : List Char) :
    stripTrailingSemisRev (l.dropWhile pyIsSpace) =
      l.dropWhile (fun c => c = ';' || pyIsSpace c) := by
  induction l with
  | nil => simp [stripTrailingSemisRev]
  | cons c t ih =>
    by_cases hsp : pyIsSpace c = true
    · rw [List.dropWhile_cons, if_pos hsp, ih, List.dropWhile_cons,
        if_pos (by simp [hsp])]
    · rw [List.dropWhile_cons, if_neg hsp]
      by_cases hsemi : c = ';'
      · subst hsemi
        rw [stripTrailingSemisRev, if_pos rfl, ih, List.dropWhile_cons,
          if_pos (by simp)]
      · rw [stripTrailingSemisRev, if_neg hsemi, List.dropWhile_cons,
          if_neg (by simp [hsemi, hsp])]

/-- The string the code tests for a leftover `;` is exactly the spec's
"remaining string". -/
theorem sts_reverse_eq_removeTrailingTerminators (sql : String) :
    (stripTrailingSemisRev (stripL sql.data).reverse).reverse =
      (removeTrailingTerminators sql).data := by
  have h1 : (stripL sql.data).reverse =
      ((sql.data.dropWhile pyIsSpace).reverse).dropWhile pyIsSpace := by
    simp [stripL, rstripL, lstripL]
  unfold removeTrailingTerminators
  rw [h1, sts_eq_dropWhile, ← dropWhile_sp_both]

/-- C6: `reject_multiple_statements` strips trailing semicolon
terminators (with interleaved whitespace) and fails iff a semicolon
remains anywhere in the remaining string; it rejects
`"SELECT 1; SELECT 2;"` and accepts a query with a single trailing
semicolon. -/
theorem c6_reject_multiple_statements (sql : String) :
    (isErr (reject_multiple_statements sql) = true ↔
      ';' ∈ (removeTrailingTerminators sql).data)
    ∧ isErr (reject_multiple_statements "SELECT 1; SELECT 2;") = true
    ∧ reject_multiple_statements "SELECT 1;" = .ok () := by
  refine ⟨?_, ?_, ?_⟩
  · have hform : reject_multiple_statements sql =
        (if ';' ∈ (stripTrailingSemisRev (stripL sql.data).reverse).reverse
         then .error "Multiple statements are not allowed (possible script detected). Provide a single SELECT query."
         else .ok ()) := rfl
    rw [hform, sts_reverse_eq_removeTrailingTerminators]
    by_cases hmem : ';' ∈ (removeTrailingTerminators sql).data
    · simp [hmem, isErr]
    · simp [hmem, isErr]
  · simp [reject_multiple_statements, stripL, lstripL, rstripL,
      stripTrailingSemisRev, pyIsSpace, isErr]
  · simp [reject_multiple_statements, stripL, lstripL, rstripL,
      stripTrailingSemisRev, pyIsSpace]

/-- C6 witness: the theorem applied at the two concrete example
queries. -/
theorem c6_witness :
    isErr (reject_multiple_statements "SELECT 1; SELECT 2;") = true
    ∧ reject_multiple_statements "SELECT 1;" = .ok () :=
  ⟨(c6_reject_multiple_statements "SELECT 1; SELECT 2;").2.1,
   (c6_reject_multiple_statements "SELECT 1;").2.2⟩

/-! ## C7 — SQL normalization -/

/-- C7: `normalize_sql` removes `/* ... */` block comments (across
newlines) and `--`/`#` line comments, trims surrounding whitespace, and
fails with an empty-input error iff the input is empty/whitespace before
comment removal or consists only of comments and whitespace after
removal; `normalize_sql("SELECT 1; -- comment")` returns
`"SELECT 1;"`. -/
theorem c7_normalize_sql (s : String) :
    (isErr (normalize_sql s) = true ↔
      stripL s.data = [] ∨
        stripL (removeLineComments (removeBlockComments (stripL s.data))) = [])
    ∧ normalize_sql "SELECT 1; -- comment" = .ok "SELECT 1;"
    ∧ normalize_sql "SELECT /* block\ncomment */ 1" = .ok "SELECT  1"
    ∧ isErr (normalize_sql "  /* only a\ncomment */ -- and this\n# this too  ") = true
    ∧ isErr (normalize_sql "") = true := by
  refine ⟨?_, ?_, ?_, ?_, ?_⟩
  · have hform : normalize_sql s =
        (if (stripL s.data).isEmpty then .error "SQL is empty"
         else if (stripL (removeLineComments (removeBlockComments
             (stripL s.data)))).isEmpty
           then .error "SQL is empty after removing comments"
           else .ok ⟨stripL (removeLineComments (removeBlockComments
             (stripL s.data)))⟩) := rfl
    rw [hform]
    by_cases h1 : (stripL s.data).isEmpty = true
    · simp [h1, isErr, List.isEmpty_iff.mp h1]
    · by_cases h2 : (stripL (removeLineComments (removeBlockComments
          (stripL s.data)))).isEmpty = true
      · simp [h1, h2, isErr, List.isEmpty_iff.mp h2]
      · simp only [h1, h2, Bool.false_eq_true, if_false, isErr]
        constructor
        · intro hfalse
          exact absurd hfalse (by simp)
        · intro hor
          rcases hor with h | h
          · exact absurd h (by simpa using h1)
          · exact absurd h (by simpa using h2)
  · simp [normalize_sql, stripL, lstripL, rstripL, removeBlockComments,
      removeLineComments, pyIsSpace]
  · simp [normalize_sql, stripL, lstripL, rstripL, removeBlockComments,
      removeLineComments, skipToClose, pyIsSpace]
  · simp [normalize_sql, stripL, lstripL, rstripL, removeBlockComments,
      removeLineComments, skipToClose, pyIsSpace, isErr]
  · simp [normalize_sql, stripL, lstripL, rstripL, isErr]

/-- C7 witness: the theorem applied at the concrete example query. -/
theorem c7_witness :
    normalize_sql "SELECT 1; -- comment" = .ok "SELECT 1;" :=
  (c7_normalize_sql "SELECT 1; -- comment").2.1

/-! ## C2 / C3 — token authentication -/

/-- The comparison count of the authentication loop: one plus the index
of the first matching key when a match exists, the full registry length
otherwise. -/
theorem authScan_count (t : String) : ∀ R : List (String × String),
    (∀ i, firstMatchPos R t = some i → (authScan R t).2 = i + 1)
    ∧ (firstMatchPos R t = none → (authScan R t).2 = R.length) := by
  intro R
  induction R with
  | nil =>
    constructor
    · intro i hi
      simp [firstMatchPos] at hi
    · intro _
      simp [authScan]
  | cons p rest ih =>
    obtain ⟨k, lab⟩ := p
    by_cases hk : compare_digest k t = true
    · constructor
      · intro i hi
        simp [firstMatchPos, hk] at hi
        simp [authScan, hk, ← hi]
      · intro hnone
        simp [firstMatchPos, hk] at hnone
    · have hsc : (authScan ((k, lab) :: rest) t).2 = (authScan rest t).2 + 1 := by
        simp [authScan, hk]
      have hfm : firstMatchPos ((k, lab) :: rest) t =
          (firstMatchPos rest t).map (· + 1) := by
        simp [firstMatchPos, hk]
      constructor
      · intro i hi
        rw [hfm] at hi
        cases hrest : firstMatchPos rest t with
        | none =>
          rw [hrest] at hi
          simp at hi
        | some j =>
          rw [hrest] at hi
          simp at hi
          rw [hsc, ih.1 j hrest]
          omega
      · intro hnone
        rw [hfm] at hnone
        cases hrest : firstMatchPos rest t with
        | some j =>
          rw [hrest] at hnone
          simp at hnone
        | none =>
          rw [hsc, ih.2 hrest]
          simp

/-- A token matching no key has no first-match position. -/
theorem firstMatchPos_none (t : String) : ∀ R : List (String × String),
    (∀ p ∈ R, p.1 ≠ t) → firstMatchPos R t = none := by
  intro R
  induction R with
  | nil => intro _; simp [firstMatchPos]
  | cons p rest ih =>
    intro h
    obtain ⟨k, lab⟩ := p
    have hk : ¬ compare_digest k t = true := by
      simp only [compare_digest, beq_iff_eq]
      exact h (k, lab) (by simp)
    simp [firstMatchPos, hk,
      ih (fun q hq => h q (List.mem_cons_of_mem _ hq))]

/-- A token matching no key makes the loop return no label. -/
theorem authScan_fst_none (t : String) : ∀ R : List (String × String),
    (∀ p ∈ R, p.1 ≠ t) → (authScan R t).1 = none := by
  intro R
  induction R with
  | nil => intro _; simp [authScan]
  | cons p rest ih =>
    intro h
    obtain ⟨k, lab⟩ := p
    have hk : ¬ compare_digest k t = true := by
      simp only [compare_digest, beq_iff_eq]
      exact h (k, lab) (by simp)
    simp [authScan, hk,
      ih (fun q hq => h q (List.mem_cons_of_mem _ hq))]

/-- With pairwise-distinct keys (a Python dict guarantees this), the
loop returns label `l` exactly when `(t, l)` is a registry entry. -/
theorem authScan_fst_some (t l : String) : ∀ R : List (String × String),
    (R.map Prod.fst).Nodup →
    ((authScan R t).1 = some l ↔ (t, l) ∈ R) := by
  intro R
  induction R with
  | nil => intro _; simp [authScan]
  | cons p rest ih =>
    intro hnd
    obtain ⟨k, lab⟩ := p
    simp only [List.map_cons, List.nodup_cons] at hnd
    obtain ⟨hknotin, hndrest⟩ := hnd
    by_cases hk : compare_digest k t = true
    · have hkt : k = t := by simpa [compare_digest] using hk
      subst hkt
      simp only [authScan, hk, if_true]
      constructor
      · intro h
        have : lab = l := by simpa using h
        subst this
        exact List.mem_cons_self _ _
      · intro hmem
        rcases List.mem_cons.mp hmem with heq | hmemrest
        · have : l = lab := (Prod.ext_iff.mp heq).2
          simp [this]
        · exact absurd (List.mem_map_of_mem Prod.fst hmemrest) hknotin
    · have hkt : k ≠ t := by simpa [compare_digest] using hk
      simp only [authScan, hk, Bool.false_eq_true, if_false]
      rw [ih hndrest]
      constructor
      · intro h
        exact List.mem_cons_of_mem _ h
      · intro hmem
        rcases List.mem_cons.mp hmem with heq | hmemrest
        · exact absurd (congrArg Prod.fst heq).symm hkt
        · exact hmemrest

/-- C3: for a registry with non-empty, pairwise-distinct keys (as
`TokenStore` construction guarantees), `authenticate` returns label `l`
iff the presented token equals the key whose label is `l`; a non-empty
token matching no key fails with the invalid-token error; an empty or
missing token always fails with the missing-token error. -/
theorem c3_authenticate (R : List (String × String)) (t : String)
    (hkeys : ∀ p ∈ R, p.1 ≠ "") (hnd : (R.map Prod.fst).Nodup) :
    (∀ l, authenticate (some t) R = .ok l ↔ (t, l) ∈ R)
    ∧ (t ≠ "" → (∀ p ∈ R, p.1 ≠ t) → authenticate (some t) R = .invalidToken)
    ∧ authenticate (some "") R = .missingToken
    ∧ authenticate none R = .missingToken := by
  refine ⟨?_, ?_, by simp [authenticate], rfl⟩
  · intro l
    by_cases ht : t = ""
    · subst ht
      simp only [authenticate, if_pos rfl]
      constructor
      · intro h
        cases h
      · intro hmem
        exact absurd rfl (hkeys ("", l) hmem)
    · simp only [authenticate, ht, if_false]
      rw [← authScan_fst_some t l R hnd]
      cases hscan : (authScan R t).1 with
      | none => simp
      | some lab => simp
  · intro ht hno
    simp [authenticate, ht, authScan_fst_none t R hno]

/-- C3 witness: the theorem applied at a concrete two-token registry. -/
theorem c3_witness :
    authenticate (some "tok2") [("tok1", "alice"), ("tok2", "bob")] = .ok "bob"
    ∧ authenticate (some "zzz") [("tok1", "alice"), ("tok2", "bob")] = .invalidToken
    ∧ authenticate none [("tok1", "alice"), ("tok2", "bob")] = .missingToken := by
  have h := c3_authenticate [("tok1", "alice"), ("tok2", "bob")] "tok2"
    (by decide) (by decide)
  have h2 := c3_authenticate [("tok1", "alice"), ("tok2", "bob")] "zzz"
    (by decide) (by decide)
  exact ⟨(h.1 "bob").mpr (by decide), h2.2.1 (by decide) (by decide), h.2.2.2⟩

/-- C2 counterexample: with two registered tokens and the first one
presented, the loop performs a single comparison and returns — not one
comparison per key as the claim states. -/
theorem c2_counterexample :
    authCompareCount (some "tokA") [("tokA", "labelA"), ("tokB", "labelB")] = 1
    ∧ ([("tokA", "labelA"), ("tokB", "labelB")] : List (String × String)).length = 2
    ∧ authCompareCount (some "tokA") [("tokA", "labelA"), ("tokB", "labelB")] ≠
        ([("tokA", "labelA"), ("tokB", "labelB")] : List (String × String)).length := by
  refine ⟨by decide, rfl, by decide⟩

/-- C2 (amended): each candidate comparison uses
`secrets.compare_digest`, but the loop returns on the first match, so
the number of comparisons is the first matching key's position plus one
— timing depends on that position; only when no key matches (in
particular for every rejected token) is every key compared. -/
theorem c2_authCompareCount (R : List (String × String)) (t : String)
    (ht : t ≠ "") :
    (∀ i, firstMatchPos R t = some i → authCompareCount (some t) R = i + 1)
    ∧ (firstMatchPos R t = none → authCompareCount (some t) R = R.length)
    ∧ ((∀ p ∈ R, p.1 ≠ t) → authCompareCount (some t) R = R.length) := by
  have hcc : authCompareCount (some t) R = (authScan R t).2 := by
    simp [authCompareCount, ht]
  refine ⟨?_, ?_, ?_⟩
  · intro i hi
    rw [hcc]
    exact (authScan_count t R).1 i hi
  · intro hnone
    rw [hcc]
    exact (authScan_count t R).2 hnone
  · intro hno
    rw [hcc]
    exact (authScan_count t R).2 (firstMatchPos_none t R hno)

/-- C2 witness: the amended theorem applied at a concrete registry and
non-matching token — both keys are compared. -/
theorem c2_witness :
    authCompareCount (some "zzz") [("tokA", "labelA"), ("tokB", "labelB")] = 2 := by
  have h := c2_authCompareCount [("tokA", "labelA"), ("tokB", "labelB")] "zzz"
    (by decide)
  exact h.2.2 (by decide)

/-! ## C8 — date-range clamp -/

/-- C8: `clamp_range_days` rejects exactly when `end ≤ start`; when the
span exceeds `max_days` it returns, without error, `end` shortened to
`start + max_days`; when within `max_days` it returns the range
unchanged in value; clamping 2026-01-01T00:00:00Z to 2026-02-01T00:00:00Z
with `max_days = 14` yields end 2026-01-15T00:00:00Z. -/
theorem c8_clamp_range_days (s e : PyDateTime) (max_days : Int)
    (hpos : 0 < max_days) :
    (isErr (clamp_range_days s e max_days) = true ↔ e.micros ≤ s.micros)
    ∧ (s.micros < e.micros →
        e.micros - s.micros > timedeltaDays max_days →
        clamp_range_days s e max_days =
          .ok (s, ⟨s.micros + timedeltaDays max_days⟩))
    ∧ (s.micros < e.micros →
        e.micros - s.micros ≤ timedeltaDays max_days →
        clamp_range_days s e max_days = .ok (s, e))
    ∧ clamp_range_days (utcMidnight 2026 1 1) (utcMidnight 2026 2 1) 14 =
        .ok (utcMidnight 2026 1 1, utcMidnight 2026 1 15)
    ∧ isErr (clamp_range_days (utcMidnight 2026 1 1)
        (utcMidnight 2026 1 1) 14) = true := by
  refine ⟨?_, ?_, ?_, by rfl, by rfl⟩
  · by_cases he : e.micros ≤ s.micros
    · simp [clamp_range_days, he, isErr]
    · by_cases hc : e.micros - s.micros > timedeltaDays max_days
      · simp [clamp_range_days, he, hc, isErr]
      · simp [clamp_range_days, he, hc, isErr]
  · intro h1 h2
    rw [clamp_range_days, if_neg (not_le.mpr h1), if_pos h2]
  · intro h1 h2
    rw [clamp_range_days, if_neg (not_le.mpr h1), if_neg (not_lt.mpr h2)]

/-- C8 witness: the theorem applied at the spec's concrete January
range. -/
theorem c8_witness :
    clamp_range_days (utcMidnight 2026 1 1) (utcMidnight 2026 2 1) 14 =
      .ok (utcMidnight 2026 1 1, utcMidnight 2026 1 15) :=
  (c8_clamp_range_days (utcMidnight 2026 1 1) (utcMidnight 2026 2 1) 14
    (by decide)).2.2.2.1

/-! ## C9 — repo allowlist -/

/-- C9: `is_allowed` is true on an empty pattern list (open by default)
and otherwise true iff `"owner/repo"` case-sensitively glob-matches some
pattern; `parse_allowlist` maps absent/empty input to `[]`, splits on
commas, strips each part and drops empties; the claim's three examples
hold. -/
theorem c9_repo_allowlist (owner repo : String) (patterns : List String) :
    (patterns = [] → is_allowed owner repo patterns = true)
    ∧ (patterns ≠ [] →
        (is_allowed owner repo patterns = true ↔
          ∃ pat ∈ patterns, fnmatchcase (owner ++ "/" ++ repo) pat = true))
    ∧ parse_allowlist none = []
    ∧ parse_allowlist (some "") = []
    ∧ parse_allowlist (some " acme/* , ,beta/x ,") = ["acme/*", "beta/x"]
    ∧ (∀ v : String, ∀ q ∈ parse_allowlist (some v), q ≠ "")
    ∧ is_allowed "acme" "api" [] = true
    ∧ is_allowed "acme" "api" ["acme/*"] = true
    ∧ is_allowed "other" "api" ["acme/*"] = false
    ∧ is_allowed "Acme" "api" ["acme/*"] = false := by
  refine ⟨?_, ?_, rfl, rfl, rfl, ?_, rfl, ?_, ?_, ?_⟩
  · intro h
    subst h
    rfl
  · intro hne
    have hemp : patterns.isEmpty = false := by
      cases patterns with
      | nil => exact absurd rfl hne
      | cons a l => rfl
    simp [is_allowed, hemp, List.any_eq_true]
  · intro v q hq
    by_cases hv : v = ""
    · simp [parse_allowlist, hv] at hq
    · simp only [parse_allowlist, hv, if_false] at hq
      have := List.of_mem_filter hq
      simpa using this
  · simp [is_allowed, fnmatchcase, globMatch, scanClass, classMatches]
  · simp [is_allowed, fnmatchcase, globMatch, scanClass, classMatches]
  · simp [is_allowed, fnmatchcase, globMatch, scanClass, classMatches]

/-- C9 witness: the theorem applied at the claim's concrete inputs. -/
theorem c9_witness :
    is_allowed "acme" "api" [] = true
    ∧ is_allowed "acme" "api" ["acme/*"] = true := by
  have h0 := c9_repo_allowlist "acme" "api" ([] : List String)
  have h := c9_repo_allowlist "acme" "api" ["acme/*"]
  refine ⟨h0.1 rfl, (h.2.1 (by simp)).mpr ?_⟩
  exact ⟨"acme/*", by simp,
    by simp [fnmatchcase, globMatch, scanClass, classMatches]⟩

/-! ## C10 — GitHub allowlist enforcement gap -/

/-- C10: `github_latest_commits` and `github_list_repos` never perform
the allowlist check and can never fail with the repository-not-allowed
error, for every configured allowlist; the same holds for the first
registration of `github_latest_commit`; only the second, duplicate
registration parses the allowlist and enforces it (failing with
repository-not-allowed exactly when `is_allowed` is false). -/
theorem c10_github_allowlist_enforcement (st : GHSettings)
    (owner repo : String) (limit : Int) (branch : Option String) :
    (GHCall.allowlistCheck ∉ (github_latest_commits st owner repo limit branch).2
      ∧ ∀ o r, (github_latest_commits st owner repo limit branch).1 ≠
          .error (.repoNotAllowed o r))
    ∧ (GHCall.allowlistCheck ∉ (github_list_repos owner).2
      ∧ ∀ o r, (github_list_repos owner).1 ≠ .error (.repoNotAllowed o r))
    ∧ (GHCall.allowlistCheck ∉ (github_latest_commit_first owner repo branch).2
      ∧ ∀ o r, (github_latest_commit_first owner repo branch).1 ≠
          .error (.repoNotAllowed o r))
    ∧ (pyStrip owner ≠ "" → pyStrip repo ≠ "" →
        (GHCall.allowlistCheck ∈ (github_latest_commit_second st owner repo branch).2
        ∧ ((github_latest_commit_second st owner repo branch).1 =
              .error (.repoNotAllowed (pyStrip owner) (pyStrip repo))
            ↔ is_allowed (pyStrip owner) (pyStrip repo)
                (parse_allowlist st.github_allowed_repos) = false))) := by
  refine ⟨⟨?_, ?_⟩, ⟨?_, ?_⟩, ⟨?_, ?_⟩, ?_⟩
  · by_cases hc : pyStrip owner = "" ∨ pyStrip repo = "" <;>
      simp [github_latest_commits, hc]
  · intro o r
    by_cases hc : pyStrip owner = "" ∨ pyStrip repo = "" <;>
      simp [github_latest_commits, hc]
  · by_cases hc : pyStrip owner = "" <;> simp [github_list_repos, hc]
  · intro o r
    by_cases hc : pyStrip owner = "" <;> simp [github_list_repos, hc]
  · by_cases hc : pyStrip owner = "" ∨ pyStrip repo = "" <;>
      simp [github_latest_commit_first, hc]
  · intro o r
    by_cases hc : pyStrip owner = "" ∨ pyStrip repo = "" <;>
      simp [github_latest_commit_first, hc]
  · intro ho hr
    have hc : ¬ (pyStrip owner = "" ∨ pyStrip repo = "") := by
      simp [ho, hr]
    by_cases hal : is_allowed (pyStrip owner) (pyStrip repo)
        (parse_allowlist st.github_allowed_repos) = true
    · constructor
      · simp [github_latest_commit_second, hc, require_allowed, hal]
      · simp [github_latest_commit_second, hc, require_allowed, hal]
    · constructor
      · simp [github_latest_commit_second, hc, require_allowed, hal]
      · simp [github_latest_commit_second, hc, require_allowed, hal]

/-- C10 witness: the theorem applied to a disallowed repo on a
configured allowlist — the second registration blocks it, the commits
tool performs no check. -/
theorem c10_witness :
    GHCall.allowlistCheck ∈
      (github_latest_commit_second ⟨some "acme/*", 50⟩ "other" "api" none).2
    ∧ (github_latest_commit_second ⟨some "acme/*", 50⟩ "other" "api" none).1 =
        .error (.repoNotAllowed "other" "api")
    ∧ GHCall.allowlistCheck ∉
        (github_latest_commits ⟨some "acme/*", 50⟩ "other" "api" 5 none).2 := by
  have h := c10_github_allowlist_enforcement ⟨some "acme/*", 50⟩ "other" "api"
    5 none
  have h2 := h.2.2.2 (by decide) (by decide)
  have hstrip_o : pyStrip "other" = "other" := rfl
  have hstrip_r : pyStrip "api" = "api" := rfl
  rw [hstrip_o, hstrip_r] at h2
  refine ⟨h2.1, h2.2.mpr ?_, h.1.1⟩
  simp [parse_allowlist, splitCommaL, stripL, lstripL, rstripL, pyIsSpace,
    is_allowed, fnmatchcase, globMatch, scanClass, classMatches]

/-! ## C1 — estimate, gate, then execute -/

/-- C1: in `bigquery_select`, `execute_select` is reached only when the
dry run's statement classification (upper-cased, as the code compares
it) is `SELECT` and the cost gate passed, and then the backend-call
trace is exactly dry-run followed by execute; whenever the
classification is not `SELECT` or the estimate exceeds a positive cap,
the pipeline raises and `execute_select` is never called. -/
theorem c1_bigquery_select_gate (st : BQSettings) (dry : DryRunResult)
    (sql : String) (max_rows : Option Int) :
    (BQCall.executeSelect ∈ (bigquery_select st dry sql max_rows).2 →
      ((dry.statement_type.getD "").toUpper = "SELECT"
        ∧ isErr (enforce_estimated_bytes dry.total_bytes_processed
            st.bq_max_bytes_billed) = false
        ∧ (bigquery_select st dry sql max_rows).2 =
            [.dryRun, .executeSelect]))
    ∧ (((dry.statement_type.getD "").toUpper ≠ "SELECT"
        ∨ ∃ b, dry.total_bytes_processed = some b
            ∧ 0 < st.bq_max_bytes_billed ∧ st.bq_max_bytes_billed < b) →
      (isErr (bigquery_select st dry sql max_rows).1 = true
        ∧ BQCall.executeSelect ∉ (bigquery_select st dry sql max_rows).2)) := by
  cases hn : normalize_sql sql with
  | error e =>
    constructor
    · intro hmem
      simp [bigquery_select, hn] at hmem
    · intro _
      simp [bigquery_select, hn, isErr]
  | ok cleaned =>
    cases hrj : reject_multiple_statements cleaned with
    | error e2 =>
      constructor
      · intro hmem
        simp [bigquery_select, hn, hrj] at hmem
      · intro _
        simp [bigquery_select, hn, hrj, isErr]
    | ok u =>
      cases u
      by_cases hstmt : (dry.statement_type.getD "").toUpper = "SELECT"
      · cases henf : enforce_estimated_bytes dry.total_bytes_processed
            st.bq_max_bytes_billed with
        | error msg =>
          constructor
          · intro hmem
            simp [bigquery_select, hn, hrj, hstmt, henf] at hmem
          · intro _
            simp [bigquery_select, hn, hrj, hstmt, henf, isErr]
        | ok u2 =>
          cases u2
          constructor
          · intro _
            refine ⟨hstmt, rfl, ?_⟩
            simp [bigquery_select, hn, hrj, hstmt, henf]
          · intro hbad
            rcases hbad with hbad | ⟨b, hb, hm, hlt⟩
            · exact absurd hstmt hbad
            · have herr : isErr (enforce_estimated_bytes
                  dry.total_bytes_processed st.bq_max_bytes_billed) = true :=
                (enforce_isErr_iff _ _).mpr ⟨b, hb, hm, hlt⟩
              rw [henf] at herr
              simp [isErr] at herr
      · constructor
        · intro hmem
          simp [bigquery_select, hn, hrj, hstmt] at hmem
        · intro _
          simp [bigquery_select, hn, hrj, hstmt, isErr]

/-- C1 witness: the theorem applied at an over-cap dry-run estimate —
the pipeline raises and execution is never begun. -/
theorem c1_witness :
    isErr (bigquery_select ⟨5000000000, 500, 1000⟩
      ⟨some "SELECT", some 6000000000⟩ "SELECT 1" none).1 = true
    ∧ BQCall.executeSelect ∉ (bigquery_select ⟨5000000000, 500, 1000⟩
        ⟨some "SELECT", some 6000000000⟩ "SELECT 1" none).2 := by
  have h := c1_bigquery_select_gate ⟨5000000000, 500, 1000⟩
    ⟨some "SELECT", some 6000000000⟩ "SELECT 1" none
  exact h.2 (Or.inr ⟨6000000000, rfl, by decide, by decide⟩)

end MCP
